import Mathlib

/-!
# single-connection/server/src/server.c

A shallow embedding of `main` (and `error`) of the single-connection TCP
server.  The operating system is an explicit environment `Env` that fixes what
every system call returns; a run of `main` is the list of system calls it
issued, the bytes it printed to standard output, the messages it handed to
`perror`, and its exit status.

Bytes (`char`) are natural numbers; a C string in memory is a list of bytes
ending in the byte `0`.  `none` stands for undefined behaviour (a scan that
leaves the object it started in).
-/

namespace Server

/-! ## Constants of the system headers (Linux values) -/

def AF_INET : Nat := 2
def SOCK_STREAM : Nat := 1
def SOL_SOCKET : Nat := 1
def SO_REUSEADDR : Nat := 2
def INADDR_ANY : Nat := 0

/-! ## Data model -/

/-- One system call issued by the program, with its arguments and its result.
A pointer argument `buf` is recorded as the contents, at the time of the call,
of the object it points to. -/
inductive Syscall where
  | socket (domain ty protocol : Nat) (ret : Int)
  | setsockopt (fd : Int) (level optname : Nat) (optval : Int) (ret : Int)
  | bind (fd : Int) (sin_family : Nat) (sin_port : List Nat) (s_addr : Nat) (ret : Int)
  | listen (fd : Int) (backlog : Nat) (ret : Int)
  | accept (fd : Int) (ret : Int)
  | read (fd : Int) (buf : List Nat) (count : Nat) (ret : Int)
  | write (fd : Int) (buf : List Nat) (count : Nat) (ret : Int)
  | close (fd : Int)
  deriving DecidableEq, Repr

/-- What the operating system answers on one run: the result of each call,
the bytes the peer sent, and the indeterminate initial contents of the
automatic array `buffer`. -/
structure Env where
  socket_ret : Int
  setsockopt_ret : Int
  bind_ret : Int
  listen_ret : Int
  accept_ret : Int
  read_ret : Int
  read_data : List Nat
  write_ret : Int
  stack : Nat → Nat

/-- The observable effects accumulated so far. -/
structure World where
  trace : List Syscall
  out : List Nat
  err : List String

/-- A finished run. -/
structure Run where
  trace : List Syscall
  out : List Nat
  err : List String
  exit_status : Int

def World.call (w : World) (c : Syscall) : World :=
  { w with trace := w.trace ++ [c] }

def World.print (w : World) (bytes : List Nat) : World :=
  { w with out := w.out ++ bytes }

/-! ## C library and kernel primitives used by `main` -/

/-- The bytes of the characters of a string. -/
def bytesOf (s : String) : List Nat := s.toList.map Char.toNat

/-- The memory of a C string literal: its characters followed by the terminator. -/
def strLit (s : String) : List Nat := bytesOf s ++ [0]

/-- The declaration `char a[n];` of an automatic array: n bytes of indeterminate value. -/
def declArray (n : Nat) (stack : Nat → Nat) : List Nat := (List.range n).map stack

/-- The call `bzero(s, n)`: the first n bytes of s become zero. -/
def bzero (s : List Nat) (n : Nat) : List Nat := List.replicate n 0 ++ s.drop n

/-- The effect of `read(fd, buf, count)` on buf when the call returns ret and the
peer's pending bytes are data: on failure buf is untouched, otherwise the
kernel stores the first min(ret, count) bytes of data at the start of buf. -/
def readInto (buf : List Nat) (count : Nat) (ret : Int) (data : List Nat) : List Nat :=
  if ret < 0 then buf
  else
    let stored := data.take (min ret.toNat count)
    stored ++ buf.drop stored.length

/-- The bytes a `%s` conversion emits for the string starting at the head of the
given memory: everything before the first zero byte.  `none` when the object
ends before a zero byte is met. -/
def percent_s : List Nat → Option (List Nat)
  | [] => none
  | c :: rest => if c = 0 then some [] else (percent_s rest).map (c :: ·)

/-- The white-space characters of `isspace` in the C locale. -/
def isspace (c : Nat) : Bool := c = 32 || (9 ≤ c && c ≤ 13)

def isdigit (c : Nat) : Bool := 48 ≤ c && c ≤ 57

/-- The digit loop of `strtol` in base 10: accumulates the leading digits. -/
def strtol_digits : List Nat → Nat → Nat
  | [], acc => acc
  | c :: rest, acc => if isdigit c then strtol_digits rest (acc * 10 + (c - 48)) else acc

def skip_space : List Nat → List Nat
  | [] => []
  | c :: rest => if isspace c then skip_space rest else c :: rest

def LONG_MAX : Int := 2 ^ 63 - 1
def LONG_MIN : Int := -(2 ^ 63)

/-- The call `strtol(nptr, NULL, 10)` with a 64-bit `long`: optional white space,
optional sign, decimal digits; out-of-range values saturate. -/
def strtol (nptr : List Nat) : Int :=
  match skip_space nptr with
  | [] => 0
  | c :: rest =>
    if c = 45 then max LONG_MIN (-(strtol_digits rest 0 : Int))
    else if c = 43 then min LONG_MAX (strtol_digits rest 0 : Int)
    else min LONG_MAX (strtol_digits (c :: rest) 0 : Int)

/-- Conversion of a `long` to a 32-bit `int`. -/
def toInt32 (x : Int) : Int := (x + 2 ^ 31) % 2 ^ 32 - 2 ^ 31

/-- The call `atoi(nptr)`, that is `(int) strtol(nptr, NULL, 10)`. -/
def atoi (nptr : List Nat) : Int := toInt32 (strtol nptr)

/-- The call `htons(hostshort)`: the argument is converted to an unsigned 16-bit
value; the result is given as the two bytes of `sin_port` in memory, most
significant byte first (network byte order). -/
def htons (hostshort : Int) : List Nat :=
  let x := (hostshort % 65536).toNat
  [x / 256, x % 256]

/-- The port number a peer sees for the two bytes of `sin_port`. -/
def portOf (sin_port : List Nat) : Nat :=
  sin_port.foldl (fun acc b => acc * 256 + b) 0

/-! ## The program -/

/-- The function `error`: `perror(msg); exit(1);`. -/
def error (msg : String) (w : World) : Run :=
  { trace := w.trace, out := w.out, err := w.err ++ [msg], exit_status := 1 }

/-- The loop `while (res[res_size] != '\0') res_size++;`.  The first argument is
the memory from `res[res_size]` onward. -/
def res_size_loop : List Nat → Nat → Option Nat
  | [], _ => none
  | c :: rest, res_size => if c ≠ 0 then res_size_loop rest (res_size + 1) else some res_size

/-- The string literal `res`. -/
def res : List Nat := strLit "From server: I got your message!"

/-- The function `main`.  `argv` holds the command-line strings (program name
first, terminators left out); `argc` is their number.  The address structures
appear through the fields handed to bind (`sin_family`, `sin_port`,
`sin_addr.s_addr`); the peer address filled in by accept is never used. -/
def main (argv : List (List Nat)) (env : Env) : Option Run :=
  let argc : Int := argv.length
  let option : Int := 1
  let buffer := declArray 256 env.stack
  let w : World := { trace := [], out := [], err := [] }
  if argc < 2 then some (error "ERROR, no port provided" w) else
  let sockfd := env.socket_ret
  let w := w.call (.socket AF_INET SOCK_STREAM 0 sockfd)
  if sockfd < 0 then some (error "ERROR opening socket" w) else
  let w := w.call (.setsockopt sockfd SOL_SOCKET SO_REUSEADDR option env.setsockopt_ret)
  let portno := atoi (argv.getD 1 [])
  let sin_port := htons portno
  let bind_ret := env.bind_ret
  let w := w.call (.bind sockfd AF_INET sin_port INADDR_ANY bind_ret)
  if bind_ret < 0 then some (error "ERROR on binding" w) else
  let w := w.call (.listen sockfd 5 env.listen_ret)
  let newsockfd := env.accept_ret
  let w := w.call (.accept sockfd newsockfd)
  if newsockfd < 0 then some (error "ERROR on accept" w) else
  let buffer := bzero buffer 256
  let n := env.read_ret
  let w := w.call (.read newsockfd buffer 255 n)
  let buffer := readInto buffer 255 n env.read_data
  if n < 0 then some (error "ERROR reading from socket" w) else
  match percent_s buffer with
  | none => none
  | some text =>
  let w := w.print (bytesOf "Here is the message: " ++ text)
  match res_size_loop res 0 with
  | none => none
  | some res_size =>
  let n := env.write_ret
  let w := w.call (.write newsockfd res res_size n)
  if n < 0 then some (error "ERROR writing to socket" w) else
  let w := w.call (.close sockfd)
  let w := w.call (.close newsockfd)
  some { trace := w.trace, out := w.out, err := w.err, exit_status := 0 }


/-! ## Observations on a run -/

/-- The kind of a system call, its arguments forgotten. -/
inductive Kind where
  | socket | setsockopt | bind | listen | accept | read | write | close
  deriving DecidableEq, Repr

def Syscall.kind : Syscall → Kind
  | .socket .. => .socket
  | .setsockopt .. => .setsockopt
  | .bind .. => .bind
  | .listen .. => .listen
  | .accept .. => .accept
  | .read .. => .read
  | .write .. => .write
  | .close .. => .close

/-- The result of a call whose result `main` tests (socket, bind, accept, read,
write); `none` for the calls whose result it discards. -/
def Syscall.checked : Syscall → Option Int
  | .socket _ _ _ ret => some ret
  | .bind _ _ _ _ ret => some ret
  | .accept _ ret => some ret
  | .read _ _ _ ret => some ret
  | .write _ _ _ ret => some ret
  | _ => none

/-- A checked call that failed. -/
def Syscall.failed (c : Syscall) : Bool :=
  match c.checked with
  | some ret => decide (ret < 0)
  | none => false

/-- The bytes a call asks the kernel to send: the first count bytes at buf. -/
def Syscall.requested : Syscall → Option (List Nat)
  | .write _ buf count _ => some (buf.take count)
  | _ => none

/-- The bytes the peer receives from one call: a write that returns ret ≥ 0
transferred the first ret of the requested bytes, a failed one none. -/
def Syscall.delivered : Syscall → List Nat
  | .write _ buf count ret => if ret < 0 then [] else (buf.take count).take ret.toNat
  | _ => []

/-- The payloads of the writes of a trace, in order. -/
def writeRequests (trace : List Syscall) : List (List Nat) :=
  trace.filterMap Syscall.requested

/-- Everything the peer receives over a trace. -/
def peerReceived (trace : List Syscall) : List Nat :=
  trace.foldr (fun c acc => c.delivered ++ acc) []

/-- The order of the system calls of one complete lifecycle. -/
def lifecycle : List Kind :=
  [.socket, .setsockopt, .bind, .listen, .accept, .read, .write, .close, .close]

/-- A decimal numeral: a non-empty string of the characters 0 to 9. -/
def isDecimal (s : List Nat) : Bool := !s.isEmpty && s.all isdigit

/-- The number a decimal numeral denotes. -/
def decimalValue (s : List Nat) : Nat := s.foldl (fun acc c => acc * 10 + (c - 48)) 0

/-- An environment in which every call succeeds and the peer sends data. -/
def okEnv (data : List Nat) : Env :=
  { socket_ret := 3, setsockopt_ret := 0, bind_ret := 0, listen_ret := 0,
    accept_ret := 4, read_ret := data.length, read_data := data,
    write_ret := 32, stack := fun _ => 255 }

/-- The acknowledgment, as the spec quotes it. -/
def ackText : String := "From server: I got your message!"

/-- A command line with a port argument. -/
def argv8080 : List (List Nat) := [bytesOf "./server", bytesOf "8080"]

/-- Every call succeeds except listen, which fails. -/
def listenFailEnv : Env := { okEnv (bytesOf "hello") with listen_ret := -1 }

/-- Every call succeeds; the peer sends three bytes, the second of them zero. -/
def nulEnv : Env := okEnv [104, 0, 105]

/-- A command line whose argument is not a number. -/
def argvAbc : List (List Nat) := [bytesOf "./server", bytesOf "abc"]

/-! ## Facts about the primitives -/

theorem res_size_loop_res : res_size_loop res 0 = some 32 := by decide

theorem percent_s_of_mem (l : List Nat) (h : 0 ∈ l) :
    percent_s l = some (l.takeWhile (fun c => decide (c ≠ 0))) := by
  induction l with
  | nil => simp at h
  | cons c rest ih =>
    by_cases hc : c = 0
    · simp [percent_s, hc]
    · have hr : 0 ∈ rest := by
        rcases List.mem_cons.mp h with h0 | h0
        · exact absurd h0.symm hc
        · exact h0
      simp [percent_s, hc, ih hr]

theorem bzero_declArray (n : Nat) (stack : Nat → Nat) :
    bzero (declArray n stack) n = List.replicate n 0 := by
  simp [bzero, declArray]

theorem readInto_zeros (k count : Nat) (ret : Int) (data : List Nat) (h : 0 ≤ ret) :
    readInto (List.replicate k 0) count ret data
      = data.take (min ret.toNat count)
          ++ List.replicate (k - (data.take (min ret.toNat count)).length) 0 := by
  have h1 : ¬ ret < 0 := not_lt.mpr h
  simp [readInto, h1]

theorem zero_mem_readInto (k count : Nat) (ret : Int) (data : List Nat) (hc : count < k) :
    0 ∈ readInto (List.replicate k 0) count ret data := by
  by_cases h : ret < 0
  · rw [readInto, if_pos h, List.mem_replicate]
    exact ⟨by omega, rfl⟩
  · rw [readInto_zeros k count ret data (not_lt.mp h)]
    have hl : (data.take (min ret.toNat count)).length < k := by
      simp only [List.length_take]; omega
    apply List.mem_append_right
    rw [List.mem_replicate]
    exact ⟨by omega, rfl⟩

theorem percent_s_buffer (stack : Nat → Nat) (ret : Int) (data : List Nat) :
    percent_s (readInto (bzero (declArray 256 stack) 256) 255 ret data)
      = some ((readInto (bzero (declArray 256 stack) 256) 255 ret data).takeWhile
          (fun c => decide (c ≠ 0))) := by
  apply percent_s_of_mem
  rw [bzero_declArray]
  exact zero_mem_readInto 256 255 ret data (by decide)

set_option maxRecDepth 100000 in
/-- The scenario of the spec, evaluated: port 9999, the peer sends `hello`. -/
theorem scenario_hello :
    (main [bytesOf "./server", bytesOf "9999"] (okEnv (bytesOf "hello"))).map
        (fun r => (r.trace, r.out, r.err, r.exit_status))
      = some
        ([Syscall.socket 2 1 0 3, Syscall.setsockopt 3 1 2 1 0, Syscall.bind 3 2 [39, 15] 0 0,
          Syscall.listen 3 5 0, Syscall.accept 3 4,
          Syscall.read 4 (List.replicate 256 0) 255 5,
          Syscall.write 4 (bytesOf "From server: I got your message!" ++ [0]) 32 32,
          Syscall.close 3, Syscall.close 4],
         bytesOf "Here is the message: hello", [], 0) := by
  decide

/-! ## Exit status -/

/-- C3: `main` always terminates with a result; its exit status is 0 exactly when
an argument is present and socket, bind, accept, read and write all return a
non-negative value (whatever the count returned by write); otherwise the
status is 1 and exactly one diagnostic went through `error`. -/
theorem main_exit_status (argv : List (List Nat)) (env : Env) :
    ∃ run, main argv env = some run ∧
      (run.exit_status = 0 ↔
        (2 ≤ argv.length ∧ 0 ≤ env.socket_ret ∧ 0 ≤ env.bind_ret ∧ 0 ≤ env.accept_ret
          ∧ 0 ≤ env.read_ret ∧ 0 ≤ env.write_ret)) ∧
      (run.exit_status ≠ 0 → run.exit_status = 1 ∧ run.err.length = 1) := by
  simp only [main, percent_s_buffer, res_size_loop_res]
  split_ifs <;> simp [error, World.call, World.print] <;> omega

/-- C4: with fewer than two command-line strings (no port argument) `main`
reports the diagnostic through `error`, exits with status 1, and has issued no
system call at all and printed nothing. -/
theorem main_no_port (argv : List (List Nat)) (env : Env) (h : argv.length < 2) :
    main argv env = some
      { trace := [], out := [], err := ["ERROR, no port provided"], exit_status := 1 } := by
  have h1 : (argv.length : Int) < 2 := by omega
  simp [main, h1, error]

/-- C4 (instance): the program name alone on the command line. -/
theorem main_no_port_witness :
    main [bytesOf "./server"] (okEnv (bytesOf "hello")) = some
      { trace := [], out := [], err := ["ERROR, no port provided"], exit_status := 1 } :=
  main_no_port [bytesOf "./server"] (okEnv (bytesOf "hello")) (by decide)

/-- C6: a write is issued only on a run on which the argument was present and
socket, bind, accept and read all returned a non-negative value; and on every
run that ends in failure (exit status other than 0) the peer has received no
byte at all. -/
theorem main_write_guard (argv : List (List Nat)) (env : Env) :
    ∃ run, main argv env = some run ∧
      ((∃ c ∈ run.trace, c.kind = Kind.write) →
        2 ≤ argv.length ∧ 0 ≤ env.socket_ret ∧ 0 ≤ env.bind_ret ∧ 0 ≤ env.accept_ret
          ∧ 0 ≤ env.read_ret) ∧
      (run.exit_status ≠ 0 → peerReceived run.trace = []) := by
  simp only [main, percent_s_buffer, res_size_loop_res]
  split_ifs <;>
    simp [error, World.call, World.print, Syscall.kind, peerReceived, Syscall.delivered, *] <;>
    omega

/-- C8 (as amended): accept is attempted exactly when the argument is present
and socket and bind returned a non-negative value; the results of setsockopt
and listen play no part. -/
theorem main_accept_guard (argv : List (List Nat)) (env : Env) :
    ∃ run, main argv env = some run ∧
      ((∃ c ∈ run.trace, c.kind = Kind.accept) ↔
        (2 ≤ argv.length ∧ 0 ≤ env.socket_ret ∧ 0 ≤ env.bind_ret)) := by
  simp only [main, percent_s_buffer, res_size_loop_res]
  split_ifs <;>
    simp [error, World.call, World.print, Syscall.kind, *] <;>
    omega

/-- C8 (counterexample): listen fails, and accept is called all the same; the
run goes on to a normal exit. -/
theorem accept_after_failed_listen :
    ∃ run, main argv8080 listenFailEnv = some run ∧ run.exit_status = 0 ∧
      Syscall.listen 3 5 (-1) ∈ run.trace ∧ Syscall.accept 3 4 ∈ run.trace := by
  refine ⟨_, rfl, ?_, ?_, ?_⟩ <;> decide

/-- C9: the system calls of every run are an initial segment of the one
lifecycle order socket, setsockopt, bind, listen, accept, read, write, close,
close, so each of socket, bind, listen, accept, read and write is issued at
most once and in that order; a failed checked call is the last call of its run
and the exit status is then 1; a run that does not exit with 0 has closed
nothing and was stopped by the missing argument or a failed checked call; and
the run completes the whole lifecycle, closes both handles and exits with 0
exactly when the argument is present and no checked call failed. -/
theorem main_lifecycle (argv : List (List Nat)) (env : Env) :
    ∃ run, main argv env = some run ∧
      run.trace.map Syscall.kind <+: lifecycle ∧
      (∀ k ∈ [Kind.socket, Kind.bind, Kind.listen, Kind.accept, Kind.read, Kind.write],
        (run.trace.map Syscall.kind).count k ≤ 1) ∧
      (∀ c ∈ run.trace, c.failed = true → run.trace.getLast? = some c ∧ run.exit_status = 1) ∧
      (run.exit_status ≠ 0 →
        run.exit_status = 1 ∧ (∀ c ∈ run.trace, c.kind ≠ Kind.close) ∧
        (argv.length < 2 ∨ ∃ c ∈ run.trace, c.failed = true)) ∧
      ((run.exit_status = 0 ∧ run.trace.map Syscall.kind = lifecycle ∧
          Syscall.close env.socket_ret ∈ run.trace ∧ Syscall.close env.accept_ret ∈ run.trace) ↔
        (2 ≤ argv.length ∧ ∀ c ∈ run.trace, c.failed = false)) := by
  simp only [main, percent_s_buffer, res_size_loop_res]
  split_ifs <;>
    refine ⟨_, rfl, ?_, ?_, ?_, ?_, ?_⟩ <;>
    simp [error, World.call, World.print, Syscall.kind, Syscall.failed, Syscall.checked,
      lifecycle, *] <;>
    omega

/-! ## The acknowledgment -/

theorem res_eq : res = bytesOf ackText ++ [0] := rfl

theorem res_take : res.take 32 = bytesOf ackText := by decide

/-- C1: on every run on which the read succeeds, whatever count it returns and
whatever bytes the peer sent, `main` issues exactly one write and its payload
is exactly the bytes of the acknowledgment text; a run that differs only in
the outcome of the read issues the very same write. -/
theorem main_reply_fixed (argv : List (List Nat)) (env : Env) (n : Int) (data : List Nat)
    (hargc : 2 ≤ argv.length) (hs : 0 ≤ env.socket_ret) (hb : 0 ≤ env.bind_ret)
    (ha : 0 ≤ env.accept_ret) (hr : 0 ≤ env.read_ret) (hn : 0 ≤ n) :
    ∃ run run2, main argv env = some run ∧
      main argv { env with read_ret := n, read_data := data } = some run2 ∧
      writeRequests run.trace = [bytesOf ackText] ∧
      writeRequests run2.trace = [bytesOf ackText] ∧
      run2.trace.filter (fun c => c.kind = Kind.write)
        = run.trace.filter (fun c => c.kind = Kind.write) := by
  have h1 : ¬ (argv.length : Int) < 2 := by omega
  simp only [main, percent_s_buffer, res_size_loop_res]
  simp only [h1, not_lt.mpr hs, not_lt.mpr hb, not_lt.mpr ha, not_lt.mpr hr, not_lt.mpr hn,
    if_false]
  split_ifs <;>
    refine ⟨_, _, rfl, rfl, ?_, ?_, ?_⟩ <;>
    simp [error, World.call, World.print, Syscall.kind, writeRequests, Syscall.requested,
      res_take]

/-- C1 (instance): the empty message and a message of 255 bytes get the same write. -/
theorem main_reply_fixed_witness :
    ∃ run run2, main argv8080 (okEnv []) = some run ∧
      main argv8080 { okEnv [] with read_ret := 255, read_data := List.replicate 255 65 }
        = some run2 ∧
      writeRequests run.trace = [bytesOf ackText] ∧
      writeRequests run2.trace = [bytesOf ackText] ∧
      run2.trace.filter (fun c => c.kind = Kind.write)
        = run.trace.filter (fun c => c.kind = Kind.write) :=
  main_reply_fixed argv8080 (okEnv []) 255 (List.replicate 255 65)
    (by decide) (by decide) (by decide) (by decide) (by decide) (by decide)

/-- C2 (counterexample): the scan of the literal does not yield 33; it yields 32. -/
theorem res_size_not_33 : res_size_loop res 0 = some 32 ∧ res_size_loop res 0 ≠ some 33 := by
  decide

/-- C2 (as amended): the scan of the literal up to its terminator yields 32, the
number of characters of the acknowledgment text (33 is the size of the literal
with its terminator); every write `main` issues passes the literal and exactly
that count, so the bytes requested are the whole text without the terminator;
and a run that exits with 0 has issued such a write. -/
theorem main_write_length (argv : List (List Nat)) (env : Env) :
    res_size_loop res 0 = some 32 ∧ (bytesOf ackText).length = 32 ∧
    ∃ run, main argv env = some run ∧
      (∀ fd buf count ret, Syscall.write fd buf count ret ∈ run.trace →
        res_size_loop buf 0 = some count ∧ count = 32 ∧ buf = bytesOf ackText ++ [0] ∧
        buf.take count = bytesOf ackText) ∧
      (run.exit_status = 0 → ∃ c ∈ run.trace, c.kind = Kind.write) := by
  refine ⟨res_size_loop_res, by decide, ?_⟩
  simp only [main, percent_s_buffer, res_size_loop_res]
  split_ifs <;>
    refine ⟨_, rfl, ?_, ?_⟩ <;>
    simp [error, World.call, World.print, Syscall.kind]
  all_goals
    rintro fd buf count ret rfl rfl rfl rfl
    exact ⟨res_size_loop_res, rfl, res_eq, res_take⟩

theorem takeWhile_append_zeros (data : List Nat) (k : Nat) :
    (data ++ List.replicate (k + 1) 0).takeWhile (fun c => decide (c ≠ 0))
      = data.takeWhile (fun c => decide (c ≠ 0)) := by
  induction data with
  | nil => simp [List.replicate_succ]
  | cons c rest ih =>
    by_cases hc : c = 0
    · simp [hc]
    · simp only [List.cons_append, List.takeWhile_cons, hc, ne_eq, not_false_eq_true,
        decide_True, if_true, ih]

theorem takeWhile_of_not_mem (data : List Nat) (h : 0 ∉ data) :
    data.takeWhile (fun c => decide (c ≠ 0)) = data := by
  rw [List.takeWhile_eq_self_iff]
  intro x hx
  have hne : x ≠ 0 := fun e => h (e ▸ hx)
  simp [hne]

theorem readInto_full (k count : Nat) (data : List Nat) (h : data.length ≤ count) :
    readInto (List.replicate k 0) count (data.length : Int) data
      = data ++ List.replicate (k - data.length) 0 := by
  rw [readInto_zeros k count _ data (Int.natCast_nonneg _)]
  have hm : min ((data.length : Int).toNat) count = data.length := by
    rw [Int.toNat_natCast]; omega
  rw [hm, List.take_length]

/-! ## The log line -/

/-- C7 (counterexample): the peer sends the three bytes 104, 0, 105 and the read
delivers all three; the text printed after the fixed words is the single byte
104, not the three bytes. -/
theorem log_cut_at_zero_byte :
    ∃ run, main argv8080 nulEnv = some run ∧
      run.out = bytesOf "Here is the message: " ++ [104] ∧
      run.out ≠ bytesOf "Here is the message: " ++ [104, 0, 105] := by
  refine ⟨_, rfl, ?_, ?_⟩ <;> decide

/-- C7 (as amended): for every byte sequence of length at most 255 delivered by
the read, the text printed is the fixed words `Here is the message: ` followed
by the bytes of the sequence that come before its first zero byte, and nothing
after them; for a sequence without a zero byte that is the whole sequence. -/
theorem main_log (argv : List (List Nat)) (env : Env)
    (hargc : 2 ≤ argv.length) (hs : 0 ≤ env.socket_ret) (hb : 0 ≤ env.bind_ret)
    (ha : 0 ≤ env.accept_ret) (hlen : env.read_data.length ≤ 255)
    (hret : env.read_ret = env.read_data.length) :
    ∃ run, main argv env = some run ∧
      run.out = bytesOf "Here is the message: "
        ++ env.read_data.takeWhile (fun c => decide (c ≠ 0)) ∧
      (0 ∉ env.read_data → run.out = bytesOf "Here is the message: " ++ env.read_data) := by
  have h1 : ¬ (argv.length : Int) < 2 := by omega
  have h2 : ¬ env.read_ret < 0 := by omega
  have hb256 : readInto (bzero (declArray 256 env.stack) 256) 255 env.read_ret env.read_data
      = env.read_data ++ List.replicate (255 - env.read_data.length + 1) 0 := by
    rw [bzero_declArray, hret, readInto_full 256 255 _ hlen]
    congr 2; omega
  simp only [main, percent_s_buffer, res_size_loop_res]
  simp only [h1, h2, not_lt.mpr hs, not_lt.mpr hb, not_lt.mpr ha, if_false, hb256,
    takeWhile_append_zeros]
  split_ifs <;>
    refine ⟨_, rfl, ?_, ?_⟩ <;>
    simp only [error, World.call, World.print, List.nil_append, true_and]
  all_goals
    intro h0
    rw [takeWhile_of_not_mem _ h0]


/-- C7 (instance of the amended claim): the peer sends `hello`. -/
theorem main_log_witness :
    ∃ run, main argv8080 (okEnv (bytesOf "hello")) = some run ∧
      run.out = bytesOf "Here is the message: "
        ++ (bytesOf "hello").takeWhile (fun c => decide (c ≠ 0)) ∧
      (0 ∉ bytesOf "hello" → run.out = bytesOf "Here is the message: " ++ bytesOf "hello") :=
  main_log argv8080 (okEnv (bytesOf "hello")) (by decide) (by decide) (by decide) (by decide)
    (by decide) rfl


/-! ## The message buffer -/

theorem getElem?_takeWhile_length (l : List Nat) (h : 0 ∈ l) :
    l[(l.takeWhile (fun c => decide (c ≠ 0))).length]? = some 0 := by
  induction l with
  | nil => simp at h
  | cons c rest ih =>
    by_cases hc : c = 0
    · simp [hc]
    · have hr : 0 ∈ rest := by
        rcases List.mem_cons.mp h with h0 | h0
        · exact absurd h0.symm hc
        · exact h0
      have hi := ih hr
      simpa [List.takeWhile_cons, hc] using hi

theorem buffer_after_read (k count : Nat) (ret : Int) (data : List Nat)
    (hc : count < k) (h : 0 ≤ ret) :
    (readInto (List.replicate k 0) count ret data).length = k ∧
    (∀ i, ret.toNat ≤ i → i < k →
      (readInto (List.replicate k 0) count ret data)[i]? = some 0) ∧
    ((readInto (List.replicate k 0) count ret data).takeWhile
      (fun c => decide (c ≠ 0))).length ≤ count ∧
    (readInto (List.replicate k 0) count ret data)[((readInto (List.replicate k 0) count ret
      data).takeWhile (fun c => decide (c ≠ 0))).length]? = some 0 := by
  have hmem := zero_mem_readInto k count ret data hc
  refine ⟨?_, ?_, ?_, getElem?_takeWhile_length _ hmem⟩
  · rw [readInto_zeros k count ret data h]
    simp only [List.length_append, List.length_replicate, List.length_take]
    omega
  · intro i hi hik
    rw [readInto_zeros k count ret data h]
    have hl : (data.take (min ret.toNat count)).length ≤ i := by
      simp only [List.length_take]; omega
    rw [List.getElem?_append_right hl, List.getElem?_replicate]
    have : i - (data.take (min ret.toNat count)).length
        < k - (data.take (min ret.toNat count)).length := by omega
    rw [if_pos this]
  · rw [readInto_zeros k count ret data h]
    have hl : (data.take (min ret.toNat count)).length ≤ count := by
      simp only [List.length_take]; omega
    have hk : k - (data.take (min ret.toNat count)).length
        = (k - (data.take (min ret.toNat count)).length - 1) + 1 := by omega
    rw [hk, takeWhile_append_zeros]
    exact le_trans (List.takeWhile_sublist _).length_le hl

/-- C10: the read `main` issues is handed a buffer of 256 zero bytes and asks
for 255 bytes; whenever it returns a count n ≥ 0, whatever the bytes received,
the buffer still has 256 bytes, every position from n through 255 is zero, and
the scan of the `%s` conversion ends on a zero byte at an index of at most 255,
inside the buffer, yielding the text that is printed. -/
theorem main_buffer_terminated (argv : List (List Nat)) (env : Env) :
    ∃ run, main argv env = some run ∧
      (run.exit_status = 0 → ∃ c ∈ run.trace, c.kind = Kind.read) ∧
      ∀ fd buf count ret, Syscall.read fd buf count ret ∈ run.trace →
        buf = List.replicate 256 0 ∧ count = 255 ∧ ret = env.read_ret ∧
        (0 ≤ ret →
          (readInto buf count ret env.read_data).length = 256 ∧
          (∀ i, ret.toNat ≤ i → i ≤ 255 →
            (readInto buf count ret env.read_data)[i]? = some 0) ∧
          ∃ text, percent_s (readInto buf count ret env.read_data) = some text ∧
            text.length ≤ 255 ∧
            (readInto buf count ret env.read_data)[text.length]? = some 0 ∧
            run.out = bytesOf "Here is the message: " ++ text) := by
  simp only [main, percent_s_buffer, res_size_loop_res]
  split_ifs <;>
    refine ⟨_, rfl, ?_, ?_⟩ <;>
    simp only [error, World.call, World.print, List.nil_append, List.cons_append,
      List.mem_cons, List.mem_singleton, List.not_mem_nil, false_imp_iff, implies_true,
      Syscall.read.injEq, reduceCtorEq, false_or, or_false, Syscall.kind] <;>
    try simp
  all_goals
    rintro fd buf count ret ⟨rfl, rfl, rfl, rfl⟩
    rw [bzero_declArray]
    refine ⟨rfl, rfl, rfl, fun h0 => ?_⟩
    obtain ⟨b1, b2, b3, b4⟩ := buffer_after_read 256 255 env.read_ret env.read_data (by decide) h0
    refine ⟨b1, fun i hi hik => b2 i hi (by omega), _, percent_s_of_mem _
      (zero_mem_readInto 256 255 env.read_ret env.read_data (by decide)), b3, b4, ?_⟩
    first | rfl | omega


/-! ## The port argument -/

theorem strtol_digits_eq_foldl (s : List Nat) (acc : Nat) (h : s.all isdigit = true) :
    strtol_digits s acc = s.foldl (fun a c => a * 10 + (c - 48)) acc := by
  induction s generalizing acc with
  | nil => rfl
  | cons c rest ih =>
    simp only [List.all_cons, Bool.and_eq_true] at h
    simp only [strtol_digits, h.1, if_true, List.foldl_cons]
    exact ih _ h.2

theorem skip_space_digit (c : Nat) (rest : List Nat) (h : isdigit c = true) :
    skip_space (c :: rest) = c :: rest := by
  have hs : isspace c = false := by
    simp only [isdigit, Bool.and_eq_true, decide_eq_true_eq] at h
    simp only [isspace, Bool.or_eq_false_iff, Bool.and_eq_false_iff, decide_eq_false_iff_not]
    omega
  simp [skip_space, hs]

theorem strtol_decimal (s : List Nat) (hd : isDecimal s = true)
    (hv : (decimalValue s : Int) ≤ LONG_MAX) : strtol s = decimalValue s := by
  cases s with
  | nil => simp [isDecimal] at hd
  | cons c rest =>
    simp only [isDecimal, List.isEmpty_cons, Bool.not_false, Bool.true_and] at hd
    have hc : isdigit c = true := by
      simp only [List.all_cons, Bool.and_eq_true] at hd; exact hd.1
    have h45 : c ≠ 45 := by
      simp only [isdigit, Bool.and_eq_true, decide_eq_true_eq] at hc; omega
    have h43 : c ≠ 43 := by
      simp only [isdigit, Bool.and_eq_true, decide_eq_true_eq] at hc; omega
    simp only [strtol, skip_space_digit c rest hc, h45, h43, if_false]
    rw [strtol_digits_eq_foldl _ _ hd]
    exact min_eq_right hv

theorem atoi_decimal (s : List Nat) (hd : isDecimal s = true) (hv : decimalValue s < 2 ^ 31) :
    atoi s = decimalValue s := by
  have h1 : (decimalValue s : Int) ≤ LONG_MAX := by
    simp only [LONG_MAX]; omega
  simp only [atoi, strtol_decimal s hd h1, toInt32]
  omega

theorem portOf_htons (p : Nat) (h : p ≤ 65535) : portOf (htons (p : Int)) = p := by
  have h1 : ((p : Int) % 65536).toNat = p := by omega
  simp only [htons, h1, portOf, List.foldl_cons, List.foldl_nil]
  omega

/-- C5 (counterexample): the argument `abc` is not a number, yet `main` reports
no usage error: it creates the socket, binds port 0 and exits with status 0. -/
theorem non_numeric_port_accepted :
    ∃ run, main argvAbc (okEnv (bytesOf "hello")) = some run ∧ run.exit_status = 0 ∧
      run.err = [] ∧ Syscall.socket AF_INET SOCK_STREAM 0 3 ∈ run.trace ∧
      Syscall.bind 3 AF_INET [0, 0] INADDR_ANY 0 ∈ run.trace := by
  refine ⟨_, rfl, ?_, ?_, ?_, ?_⟩ <;> decide

/-- C5 (as amended): `main` stops with the usage diagnostic and exit status 1
before any system call exactly when no argument is given.  With an argument,
whatever it holds and whatever follows it, `main` reports no usage error and
calls socket first; once the socket exists it binds the port `htons(atoi(argv[1]))`,
and when the argument is a decimal numeral of a port in 1..65535 that port is
the number itself. -/
theorem main_port_argument (argv : List (List Nat)) (env : Env) :
    ∃ run, main argv env = some run ∧
      (argv.length < 2 →
        run.trace = [] ∧ run.exit_status = 1 ∧ run.err = ["ERROR, no port provided"]) ∧
      (2 ≤ argv.length →
        run.trace.head? = some (Syscall.socket AF_INET SOCK_STREAM 0 env.socket_ret) ∧
        "ERROR, no port provided" ∉ run.err) ∧
      (∀ s, argv[1]? = some s → 0 ≤ env.socket_ret →
        Syscall.bind env.socket_ret AF_INET (htons (atoi s)) INADDR_ANY env.bind_ret
          ∈ run.trace ∧
        (∀ c ∈ run.trace, c.kind = Kind.bind →
          c = Syscall.bind env.socket_ret AF_INET (htons (atoi s)) INADDR_ANY env.bind_ret) ∧
        (isDecimal s = true → 1 ≤ decimalValue s → decimalValue s ≤ 65535 →
          portOf (htons (atoi s)) = decimalValue s)) := by
  have hport : ∀ s, isDecimal s = true → 1 ≤ decimalValue s → decimalValue s ≤ 65535 →
      portOf (htons (atoi s)) = decimalValue s := by
    intro s hd _ h2
    rw [atoi_decimal s hd (by omega), portOf_htons _ h2]
  have hget : ∀ s, argv[1]? = some s → argv.getD 1 [] = s ∧ ¬ (argv.length : Int) < 2 := by
    intro s hs
    have hlt : 1 < argv.length := by
      by_contra hn
      rw [List.getElem?_eq_none (by omega)] at hs
      cases hs
    refine ⟨?_, by omega⟩
    simp [List.getD, hs]
  simp only [main, percent_s_buffer, res_size_loop_res]
  split_ifs <;>
    refine ⟨_, rfl, ?_, ?_, ?_⟩ <;>
    first
    | (intro s hs h0
       obtain ⟨hg, hl⟩ := hget s hs
       refine ⟨?_, ?_, hport s⟩ <;>
         simp [error, World.call, World.print, Syscall.kind, hg, *] <;> omega)
    | (simp [error, World.call, World.print, Syscall.kind, *] <;> omega)


/-- C5 (instance of the amended claim): with the argument `8080` the bind address
carries port 8080. -/
theorem main_port_argument_witness :
    isDecimal (bytesOf "8080") = true ∧ decimalValue (bytesOf "8080") = 8080 ∧
    ∃ run, main argv8080 (okEnv []) = some run ∧
      Syscall.bind 3 AF_INET (htons (atoi (bytesOf "8080"))) INADDR_ANY 0 ∈ run.trace ∧
      portOf (htons (atoi (bytesOf "8080"))) = 8080 := by
  refine ⟨by decide, by decide, ?_⟩
  obtain ⟨run, h, _, _, h3⟩ := main_port_argument argv8080 (okEnv [])
  obtain ⟨hb, _, hp⟩ := h3 (bytesOf "8080") rfl (by decide)
  exact ⟨run, h, hb, hp (by decide) (by decide) (by decide)⟩

end Server
